import Mathlib

/-!
Verification development for a webcam-to-robot teleoperation pipeline.

The program has three stages:
* a pure geometry utility `calculate_angle` (src/src/utils.py) computing the
  angle at a vertex from three 2D/3D points via dot product and arccos;
* a vision stage `yolo_loop` (src/src/pose_detector.py) that, per captured
  frame, extracts keypoints of the first detected person, derives three
  optional scalar signals (left/right arm angle, relative hip sway with a
  live-updatable calibration offset) and enqueues the annotated frame plus the
  signal bundle, dropping it when the queue is full;
* a control stage `control_reachy` (src/src/robot_controller.py) that, per
  consumed bundle, maps hip sway linearly (mirrored, clamped) to a lateral
  head displacement and arm angles to antenna angles, holding the last
  command per channel when a signal is absent.

Floating-point numbers are modelled by the real numbers `ℝ`; `math.pi` is
modelled by `Real.pi`.  Points are modelled as finitely indexed real vectors,
covering both the 2D and 3D cases uniformly.  The bounded queues of main.py
are modelled as lists with an explicit capacity.  Per-frame control flow of
the two loops is modelled as one step function each, taking the mutable state
the loop carries across iterations (calibration offset and trigger for the
vision stage, last commanded target for the control stage).
-/

/-- Model of `np.clip(v, lo, hi)`: `np.minimum(np.maximum(v, lo), hi)`. -/
noncomputable def np_clip (v lo hi : ℝ) : ℝ := min (max v lo) hi

/-- Model of `np.interp(x, [x0, x1], [y0, y1])` for a two-point table with
`x0 < x1`: values below `x0` return `y0`, values above `x1` return `y1`, and
in between the linear interpolant is returned. -/
noncomputable def np_interp (x x0 x1 y0 y1 : ℝ) : ℝ :=
  if x ≤ x0 then y0
  else if x1 ≤ x then y1
  else y0 + (x - x0) * (y1 - y0) / (x1 - x0)

/-- Model of `calculate_angle(a, b, c)` from src/src/utils.py: the angle at
vertex `b` between the vectors `ba = a - b` and `bc = c - b`, computed as
`arccos` of the cosine clipped to `[-1, 1]`, with the degenerate guard
returning `0.0` when either vector has zero Euclidean norm.  The index type
`ι` covers `Fin 2` (2D) and `Fin 3` (3D) points uniformly. -/
noncomputable def calculate_angle {ι : Type} [Fintype ι] (a b c : ι → ℝ) : ℝ :=
  let ba := fun i => a i - b i
  let bc := fun i => c i - b i
  let norm_ba := Real.sqrt (∑ i, ba i ^ 2)
  let norm_bc := Real.sqrt (∑ i, bc i ^ 2)
  if norm_ba = 0 ∨ norm_bc = 0 then 0
  else
    let dot_product := ∑ i, ba i * bc i
    let cosine_angle := np_clip (dot_product / (norm_ba * norm_bc)) (-1) 1
    Real.arccos cosine_angle

/-- The clipped cosine always lies in `[-1, 1]`, hence `arccos` of it lies in
`[0, π]`; together with the degenerate branch returning `0`, every value of
`calculate_angle` lies in `[0, π]`. -/
theorem calculate_angle_mem_Icc {ι : Type} [Fintype ι] (a b c : ι → ℝ) :
    calculate_angle a b c ∈ Set.Icc 0 Real.pi := by
  unfold calculate_angle
  dsimp only
  split
  · exact ⟨le_refl 0, Real.pi_nonneg⟩
  · exact ⟨Real.arccos_nonneg _, Real.arccos_le_pi _⟩

/-- COCO confidence threshold `CONF_THRESHOLD = 0.5` of src/src/pose_detector.py. -/
noncomputable def CONF_THRESHOLD : ℝ := 0.5

/-- One detected keypoint: an `(x, y, confidence)` triple, as produced by the
pose detector for each anatomical landmark. -/
structure Keypoint where
  x : ℝ
  y : ℝ
  conf : ℝ

/-- The 2D position `kpt[:2]` of a keypoint, as a `Fin 2`-indexed vector. -/
noncomputable def kpos (k : Keypoint) : Fin 2 → ℝ := ![k.x, k.y]

/-- The six keypoints of the first detected person that `yolo_loop` reads
(indices LEFT_SHOULDER=5, RIGHT_SHOULDER=6, LEFT_ELBOW=7, RIGHT_ELBOW=8,
LEFT_HIP=11, RIGHT_HIP=12 of the COCO layout). -/
structure PersonKpts where
  l_shoulder : Keypoint
  r_shoulder : Keypoint
  l_elbow : Keypoint
  r_elbow : Keypoint
  l_hip : Keypoint
  r_hip : Keypoint

/-- What one iteration of `yolo_loop` observes from the pose detector:
either no detected person (`len(all_keypoints_data) == 0`), or the keypoints
of the first person, or a caught per-frame processing exception raised while
extracting keypoints, before any signal is computed (the `except Exception`
handler of the per-frame `try` block). -/
inductive Detection where
  | noPerson : Detection
  | person : PersonKpts → Detection
  | procError : Detection

/-- The per-frame signal bundle `latest_pose_data`: three optional scalars. -/
structure PoseData where
  left_arm : Option ℝ
  right_arm : Option ℝ
  hip_sway : Option ℝ

/-- The mutable state the vision stage carries across frames: the calibration
offset `pose_zero_offsets['hip_sway']` and the recalibration trigger
`calibrate_event`. -/
structure VisionState where
  offset : ℝ
  calibrate : Bool

/-- Guard of the left-arm branch: hip, shoulder and elbow confidences all
exceed `CONF_THRESHOLD`. -/
abbrev left_arm_visible (p : PersonKpts) : Prop :=
  p.l_hip.conf > CONF_THRESHOLD ∧ p.l_shoulder.conf > CONF_THRESHOLD ∧
    p.l_elbow.conf > CONF_THRESHOLD

/-- Guard of the right-arm branch: hip, shoulder and elbow confidences all
exceed `CONF_THRESHOLD`. -/
abbrev right_arm_visible (p : PersonKpts) : Prop :=
  p.r_hip.conf > CONF_THRESHOLD ∧ p.r_shoulder.conf > CONF_THRESHOLD ∧
    p.r_elbow.conf > CONF_THRESHOLD

/-- Guard of the hip-sway branch: both hip and both shoulder confidences
exceed `CONF_THRESHOLD`. -/
abbrev sway_visible (p : PersonKpts) : Prop :=
  p.l_hip.conf > CONF_THRESHOLD ∧ p.r_hip.conf > CONF_THRESHOLD ∧
    p.l_shoulder.conf > CONF_THRESHOLD ∧ p.r_shoulder.conf > CONF_THRESHOLD

/-- `raw_hip_sway = hip_center_x - shoulder_center_x` of src/src/pose_detector.py. -/
noncomputable def raw_hip_sway (p : PersonKpts) : ℝ :=
  (p.l_hip.x + p.r_hip.x) / 2 - (p.l_shoulder.x + p.r_shoulder.x) / 2

/-- One iteration of the body of `yolo_loop` (src/src/pose_detector.py),
from reading the detector result to the enqueue attempt.  Returns the new
vision state together with `some bundle` when a `(frame, bundle)` pair is
offered to the frame queue, or `none` when the iteration `continue`s without
enqueueing anything (no person detected).  The calibration trigger is
consumed — and the offset overwritten with the raw sway — only inside the
hip-sway branch, exactly as in the source. -/
noncomputable def yolo_step (st : VisionState) (d : Detection) :
    VisionState × Option PoseData :=
  match d with
  | .noPerson => (st, none)
  | .procError => (st, some ⟨none, none, none⟩)
  | .person p =>
    let la : Option ℝ :=
      if left_arm_visible p then
        some (calculate_angle (kpos p.l_hip) (kpos p.l_shoulder) (kpos p.l_elbow))
      else none
    let ra : Option ℝ :=
      if right_arm_visible p then
        some (calculate_angle (kpos p.r_hip) (kpos p.r_shoulder) (kpos p.r_elbow))
      else none
    if sway_visible p then
      let raw := raw_hip_sway p
      let st' := if st.calibrate then ⟨raw, false⟩ else st
      (st', some ⟨la, ra, some (raw - st'.offset)⟩)
    else
      (st, some ⟨la, ra, none⟩)

/-- The vision state after processing a list of frames in order. -/
noncomputable def yolo_run (st : VisionState) (ds : List Detection) : VisionState :=
  ds.foldl (fun s d => (yolo_step s d).1) st

/-- `sway_computable d` holds when the frame observation `d` lets the loop
reach the hip-sway branch: a detected person whose four hip/shoulder
confidences all exceed the threshold. -/
def sway_computable : Detection → Prop
  | .person p => sway_visible p
  | _ => False

/-- Mapping parameter `SWAY_PIXEL_MAX = 80` of src/src/robot_controller.py. -/
noncomputable def SWAY_PIXEL_MAX : ℝ := 80

/-- Mapping parameter `HEAD_Y_MM_MAX = 35` of src/src/robot_controller.py. -/
noncomputable def HEAD_Y_MM_MAX : ℝ := 35

/-- The lateral head command computed from a present `hip_sway` value:
`np.interp` over `SWAY_INPUT_RANGE = [-80, 80]` and the mirrored
`HEAD_OUTPUT_RANGE = [35, -35]`, then `np.clip` to `[-35, 35]`. -/
noncomputable def head_y_cmd (s : ℝ) : ℝ :=
  np_clip
    (np_interp s (-SWAY_PIXEL_MAX) SWAY_PIXEL_MAX HEAD_Y_MM_MAX (-HEAD_Y_MM_MAX))
    (-HEAD_Y_MM_MAX) HEAD_Y_MM_MAX

/-- The joint target the control stage sends: the lateral head displacement in
mm (the only head axis `control_reachy` varies; pitch/roll/yaw stay at their
defaults) and the `[left, right]` antenna angles in radians. -/
structure RobotCmd where
  head_y : ℝ
  antennas : ℝ × ℝ

/-- One iteration of the body of `control_reachy` (src/src/robot_controller.py)
after a bundle was dequeued: starting from the last commanded target, the head
channel is recomputed when `hip_sway` is present and the antenna pair is
recomputed when both arm angles are present (`l_angle_cmd = π - left_arm`,
`r_angle_cmd = π - right_arm`, sent as `[-l_angle_cmd, r_angle_cmd]`); the
combined target is sent and becomes the new held command. -/
noncomputable def control_reachy_step (pose_data : PoseData) (last : RobotCmd) :
    RobotCmd :=
  let new_head_y :=
    match pose_data.hip_sway with
    | some s => head_y_cmd s
    | none => last.head_y
  let new_antennas :=
    match pose_data.left_arm, pose_data.right_arm with
    | some aL, some aR => (-(Real.pi - aL), Real.pi - aR)
    | _, _ => last.antennas
  ⟨new_head_y, new_antennas⟩

/-- A bounded FIFO queue (`queue.Queue(maxsize=cap)` of main.py), as the list
of its items, oldest first. -/
structure BQueue (α : Type) where
  cap : Nat
  items : List α

/-- `q.put_nowait(a)` with the caller's `except queue.Full: pass` handler:
append when there is room, otherwise leave the queue untouched (the `Full`
exception is swallowed, so the caller never blocks and never sees an error). -/
def put_nowait {α : Type} (q : BQueue α) (a : α) : BQueue α :=
  if q.items.length < q.cap then ⟨q.cap, q.items ++ [a]⟩ else q

/-- Capacity of `frame_queue = queue.Queue(maxsize=2)` in main.py. -/
def frame_queue_maxsize : Nat := 2

/-- Capacity of `pose_queue = queue.Queue(maxsize=10)` in main.py. -/
def pose_queue_maxsize : Nat := 10

/-- On the input range `[-80, 80]` the lateral head command is the linear
interpolant `-(35/80) * s` (and the clip is a no-op there). -/
theorem head_y_cmd_linear (s : ℝ) (h1 : -80 ≤ s) (h2 : s ≤ 80) :
    head_y_cmd s = -(35 / 80) * s := by
  unfold head_y_cmd np_clip np_interp SWAY_PIXEL_MAX HEAD_Y_MM_MAX
  split_ifs with ha hb
  · have hs : s = -80 := le_antisymm ha h1
    subst hs
    norm_num
  · have hs : s = 80 := le_antisymm h2 hb
    subst hs
    norm_num
  · have heq : 35 + (s - -80) * (-35 - 35) / (80 - -80) = -(35 / 80) * s := by ring
    rw [heq, max_eq_left (by linarith), min_eq_left (by linarith)]

/-- The clip keeps every lateral head command within `[-35, 35]` mm. -/
theorem abs_head_y_cmd_le (s : ℝ) : |head_y_cmd s| ≤ 35 := by
  unfold head_y_cmd np_clip HEAD_Y_MM_MAX
  rw [abs_le]
  exact ⟨le_min (le_max_right _ _) (by norm_num), min_le_right _ _⟩

/-- Claim C1: the bundle `{left_arm: 0, right_arm: π, hip_sway: 40}` (hip sway
40 is what the vision stage reports when the raw sway is 40 and the
calibration offset has never been set away from its default 0) makes the
control stage send lateral head displacement `-17.5` mm, left antenna `-π`
rad and right antenna `0` rad, whatever target was previously held. -/
theorem end_to_end_bundle (last : RobotCmd) :
    control_reachy_step ⟨some 0, some Real.pi, some 40⟩ last
      = ⟨-17.5, (-Real.pi, 0)⟩ := by
  unfold control_reachy_step
  dsimp only
  rw [head_y_cmd_linear 40 (by norm_num) (by norm_num)]
  norm_num

/-- Claim C2: with `hip_sway` present with value `s`, the commanded lateral
head displacement is `head_y_cmd s`; this mapping sends `0 ↦ 0`, `80 ↦ -35`
and `-80 ↦ 35`, agrees with the linear interpolant `-(35/80) * s` on the whole
input range `[-80, 80]`, and its magnitude never exceeds `35` mm on any
input. -/
theorem hip_sway_mapping :
    (∀ (pose : PoseData) (last : RobotCmd) (s : ℝ), pose.hip_sway = some s →
      (control_reachy_step pose last).head_y = head_y_cmd s) ∧
    head_y_cmd 0 = 0 ∧ head_y_cmd 80 = -35 ∧ head_y_cmd (-80) = 35 ∧
    (∀ s : ℝ, -80 ≤ s → s ≤ 80 → head_y_cmd s = -(35 / 80) * s) ∧
    (∀ s : ℝ, |head_y_cmd s| ≤ 35) := by
  refine ⟨?_, ?_, ?_, ?_, head_y_cmd_linear, abs_head_y_cmd_le⟩
  · intro pose last s h
    simp [control_reachy_step, h]
  · rw [head_y_cmd_linear 0 (by norm_num) (by norm_num)]; norm_num
  · rw [head_y_cmd_linear 80 (by norm_num) (by norm_num)]; norm_num
  · rw [head_y_cmd_linear (-80) (by norm_num) (by norm_num)]; norm_num

/-- Witness for C2 at concrete inputs: the bundle `{hip_sway: 40}` commands
`head_y_cmd 40`, which equals the interpolant at `40`, and an out-of-range
input `200` stays within `35` mm in magnitude. -/
theorem hip_sway_mapping_witness :
    (control_reachy_step ⟨none, none, some 40⟩ ⟨0, (0, 0)⟩).head_y
        = head_y_cmd 40 ∧
    head_y_cmd 40 = -(35 / 80) * 40 ∧
    |head_y_cmd 200| ≤ 35 :=
  ⟨hip_sway_mapping.1 ⟨none, none, some 40⟩ ⟨0, (0, 0)⟩ 40 rfl,
   hip_sway_mapping.2.2.2.2.1 40 (by norm_num) (by norm_num),
   hip_sway_mapping.2.2.2.2.2 200⟩

/-- Claim C3: with both arm angles present, the antenna pair sent is
`(-(π - aL), π - aR)`; consequently arm angle `0` yields antenna magnitude
`π` on either side, arm angle `π` yields the pair `(0, 0)`, and for equal
input angles the left command is the negation of the right command (mirrored
signs). -/
theorem antenna_mapping :
    (∀ (pose : PoseData) (last : RobotCmd) (aL aR : ℝ),
        pose.left_arm = some aL → pose.right_arm = some aR →
        (control_reachy_step pose last).antennas
          = (-(Real.pi - aL), Real.pi - aR)) ∧
    (∀ last : RobotCmd,
        |(control_reachy_step ⟨some 0, some 0, none⟩ last).antennas.1|
            = Real.pi ∧
        |(control_reachy_step ⟨some 0, some 0, none⟩ last).antennas.2|
            = Real.pi) ∧
    (∀ last : RobotCmd,
        (control_reachy_step ⟨some Real.pi, some Real.pi, none⟩ last).antennas
          = (0, 0)) ∧
    (∀ (a : ℝ) (last : RobotCmd),
        (control_reachy_step ⟨some a, some a, none⟩ last).antennas.1
          = -(control_reachy_step ⟨some a, some a, none⟩ last).antennas.2) := by
  refine ⟨?_, ?_, ?_, ?_⟩
  · intro pose last aL aR hL hR
    simp [control_reachy_step, hL, hR]
  · intro last
    simp [control_reachy_step, abs_of_nonneg Real.pi_nonneg]
  · intro last
    simp [control_reachy_step]
  · intro a last
    simp [control_reachy_step]

/-- Witness for C3 at concrete inputs: the bundle `{left_arm: 1, right_arm: 2}`
sends the antenna pair `(-(π - 1), π - 2)`. -/
theorem antenna_mapping_witness :
    (control_reachy_step ⟨some 1, some 2, none⟩ ⟨0, (0, 0)⟩).antennas
      = (-(Real.pi - 1), Real.pi - 2) :=
  antenna_mapping.1 ⟨some 1, some 2, none⟩ ⟨0, (0, 0)⟩ 1 2 rfl rfl

/-- Claim C5: the two channels hold their last value independently: absent
`hip_sway` leaves the lateral component at the previously held value while
present arm angles recompute the antenna pair, and an absent arm angle leaves
the antenna pair at the previously held value while a present `hip_sway`
recomputes the lateral component. -/
theorem hold_last_value (pose : PoseData) (last : RobotCmd) :
    (pose.hip_sway = none →
      (control_reachy_step pose last).head_y = last.head_y) ∧
    (pose.left_arm = none ∨ pose.right_arm = none →
      (control_reachy_step pose last).antennas = last.antennas) ∧
    (∀ aL aR, pose.left_arm = some aL → pose.right_arm = some aR →
      (control_reachy_step pose last).antennas
        = (-(Real.pi - aL), Real.pi - aR)) ∧
    (∀ s, pose.hip_sway = some s →
      (control_reachy_step pose last).head_y = head_y_cmd s) := by
  refine ⟨?_, ?_, ?_, ?_⟩
  · intro h
    simp [control_reachy_step, h]
  · intro h
    rcases h with h | h
    · cases hr : pose.right_arm <;> simp [control_reachy_step, h, hr]
    · cases hl : pose.left_arm <;> simp [control_reachy_step, h, hl]
  · intro aL aR hL hR
    simp [control_reachy_step, hL, hR]
  · intro s h
    simp [control_reachy_step, h]

/-- Witness for C5 at concrete inputs: with held target
`{head_y: 5, antennas: (6, 7)}`, the bundle `{left_arm: 1, right_arm: 2,
hip_sway: none}` keeps `head_y = 5` and recomputes the antennas, and the
bundle `{hip_sway: 40}` keeps the antennas `(6, 7)` and recomputes the
head. -/
theorem hold_last_value_witness :
    (control_reachy_step ⟨some 1, some 2, none⟩ ⟨5, (6, 7)⟩).head_y = (5 : ℝ) ∧
    (control_reachy_step ⟨none, none, some 40⟩ ⟨5, (6, 7)⟩).antennas
        = ((6 : ℝ), (7 : ℝ)) ∧
    (control_reachy_step ⟨some 1, some 2, none⟩ ⟨5, (6, 7)⟩).antennas
        = (-(Real.pi - 1), Real.pi - 2) ∧
    (control_reachy_step ⟨none, none, some 40⟩ ⟨5, (6, 7)⟩).head_y
        = head_y_cmd 40 :=
  ⟨(hold_last_value ⟨some 1, some 2, none⟩ ⟨5, (6, 7)⟩).1 rfl,
   (hold_last_value ⟨none, none, some 40⟩ ⟨5, (6, 7)⟩).2.1 (Or.inl rfl),
   (hold_last_value ⟨some 1, some 2, none⟩ ⟨5, (6, 7)⟩).2.2.1 1 2 rfl rfl,
   (hold_last_value ⟨none, none, some 40⟩ ⟨5, (6, 7)⟩).2.2.2 40 rfl⟩

/-- Claim C8: `calculate_angle` is a total function (in this embedding it is
defined on all real points of any finite dimension, with the zero-norm guard
replacing the division), and it returns exactly `0` whenever the point `a`
coincides with the vertex `b` or the point `c` does (the vector `a - b`,
respectively `c - b`, then has zero length; over the reals a vector has zero
Euclidean norm exactly when it is the zero vector, so these are all the
degenerate cases). -/
theorem calculate_angle_degenerate_zero {ι : Type} [Fintype ι] (a b c : ι → ℝ)
    (h : a = b ∨ c = b) : calculate_angle a b c = 0 := by
  unfold calculate_angle
  dsimp only
  rcases h with h | h
  · subst h
    rw [if_pos (Or.inl (by simp))]
  · subst h
    rw [if_pos (Or.inr (by simp))]

/-- Witness for C8 at a concrete input: the 2D point triple with `a = b`
yields angle `0`. -/
theorem calculate_angle_degenerate_zero_witness :
    calculate_angle (fun _ : Fin 2 => (0 : ℝ)) (fun _ => 0) (fun _ => 1) = 0 :=
  calculate_angle_degenerate_zero _ _ _ (Or.inl rfl)

/-- A frame observation that cannot reach the hip-sway branch leaves the
vision state (offset and trigger) untouched. -/
theorem yolo_step_state_of_not_computable (st : VisionState) (d : Detection)
    (h : ¬ sway_computable d) : (yolo_step st d).1 = st := by
  cases d with
  | noPerson => rfl
  | procError => rfl
  | person p =>
    have hv : ¬ sway_visible p := h
    simp [yolo_step, hv]

/-- When the trigger is not set, no frame changes the vision state. -/
theorem yolo_step_state_of_not_calibrate (st : VisionState) (d : Detection)
    (h : st.calibrate = false) : (yolo_step st d).1 = st := by
  cases d with
  | noPerson => rfl
  | procError => rfl
  | person p =>
    by_cases hv : sway_visible p
    · simp only [yolo_step]
      rw [if_pos hv]
      simp [h]
    · simp [yolo_step, hv]

/-- Claim C4: when the trigger is set and a frame yields a computable raw
sway, that raw sway becomes the stored offset and the trigger is cleared; the
emitted bundle already reports relative sway `0`; the trigger is consumed
exactly once — after that frame no frame whatsoever changes the state again
(no re-zeroing) — and any later frame whose raw sway equals the calibrated
value also reports `0`. -/
theorem calibration_single_shot (st : VisionState) (p : PersonKpts)
    (hcal : st.calibrate = true) (hvis : sway_visible p) :
    (yolo_step st (.person p)).1.offset = raw_hip_sway p ∧
    (yolo_step st (.person p)).1.calibrate = false ∧
    ((yolo_step st (.person p)).2.map PoseData.hip_sway = some (some 0)) ∧
    (∀ d, (yolo_step (yolo_step st (.person p)).1 d).1
        = (yolo_step st (.person p)).1) ∧
    (∀ p', sway_visible p' → raw_hip_sway p' = raw_hip_sway p →
      (yolo_step (yolo_step st (.person p)).1 (.person p')).2.map
          PoseData.hip_sway = some (some 0)) := by
  have hst : (yolo_step st (.person p)).1 = ⟨raw_hip_sway p, false⟩ := by
    simp only [yolo_step]
    rw [if_pos hvis]
    simp [hcal]
  refine ⟨by rw [hst], by rw [hst], ?_, ?_, ?_⟩
  · simp only [yolo_step]
    rw [if_pos hvis]
    simp [hcal]
  · intro d
    rw [hst]
    exact yolo_step_state_of_not_calibrate _ _ rfl
  · intro p' hv' hraw
    rw [hst]
    simp only [yolo_step]
    rw [if_pos hv']
    simp [hraw]

/-- Claim C10: while raw sway is not computable — no detected person, a caught
per-frame processing exception, or any of the four hip/shoulder confidences
at or below the threshold — a set trigger stays set and the offset stays
unchanged; running any such prefix of frames and then the first frame with
computable raw sway `raw_hip_sway p` leaves the state calibrated to exactly
that value with the trigger cleared. -/
theorem calibration_deferred (st : VisionState) (hcal : st.calibrate = true) :
    (∀ d, ¬ sway_computable d → yolo_step st d = (st, (yolo_step st d).2)) ∧
    (∀ (pre : List Detection) (p : PersonKpts),
      (∀ d ∈ pre, ¬ sway_computable d) → sway_visible p →
      yolo_run st (pre ++ [Detection.person p])
        = ⟨raw_hip_sway p, false⟩) := by
  constructor
  · intro d hd
    have h1 := yolo_step_state_of_not_computable st d hd
    exact Prod.ext h1 rfl
  · intro pre
    induction pre with
    | nil =>
      intro p hpre hp
      show (yolo_step st (.person p)).1 = _
      simp only [yolo_step]
      rw [if_pos hp]
      simp [hcal]
    | cons d ds ih =>
      intro p hpre hp
      have hd : ¬ sway_computable d := hpre d (by simp)
      have h1 : (yolo_step st d).1 = st :=
        yolo_step_state_of_not_computable st d hd
      show yolo_run (yolo_step st d).1 (ds ++ [Detection.person p]) = _
      rw [h1]
      exact ih p (fun d' hd' => hpre d' (by simp [hd'])) hp

/-- A concrete person whose hip and shoulder confidences pass the threshold
but whose elbow confidences do not: the hip-sway branch runs, the arm
branches do not.  Field order: left/right shoulder, left/right elbow,
left/right hip. -/
noncomputable def pGood : PersonKpts :=
  ⟨⟨0, 0, 1⟩, ⟨0, 0, 1⟩, ⟨0, 0, 0⟩, ⟨0, 0, 0⟩, ⟨10, 0, 1⟩, ⟨20, 0, 1⟩⟩

/-- A concrete person with every confidence at `0`: no branch runs. -/
noncomputable def pBad : PersonKpts :=
  ⟨⟨0, 0, 0⟩, ⟨0, 0, 0⟩, ⟨0, 0, 0⟩, ⟨0, 0, 0⟩, ⟨0, 0, 0⟩, ⟨0, 0, 0⟩⟩

/-- A concrete person with every confidence at `1`: all three branches run. -/
noncomputable def pFull : PersonKpts :=
  ⟨⟨0, 0, 1⟩, ⟨4, 0, 1⟩, ⟨0, 3, 1⟩, ⟨4, 3, 1⟩, ⟨1, 2, 1⟩, ⟨3, 2, 1⟩⟩

/-- Witness for C4 at concrete inputs: with offset `0`, trigger set, and the
person `pGood` in view, the step stores `raw_hip_sway pGood` as the offset,
clears the trigger, reports relative sway `0`, and a following frame with no
person leaves the state untouched. -/
theorem calibration_single_shot_witness :
    (yolo_step ⟨0, true⟩ (Detection.person pGood)).1.offset
        = raw_hip_sway pGood ∧
    (yolo_step ⟨0, true⟩ (Detection.person pGood)).1.calibrate = false ∧
    (yolo_step ⟨0, true⟩ (Detection.person pGood)).2.map PoseData.hip_sway
        = some (some 0) ∧
    (yolo_step (yolo_step ⟨0, true⟩ (Detection.person pGood)).1
        Detection.noPerson).1
      = (yolo_step ⟨0, true⟩ (Detection.person pGood)).1 :=
  have h := calibration_single_shot ⟨0, true⟩ pGood rfl
    (by norm_num [sway_visible, pGood, CONF_THRESHOLD])
  ⟨h.1, h.2.1, h.2.2.1, h.2.2.2.1 Detection.noPerson⟩

/-- Witness for C10 at concrete inputs: with the trigger set, a no-person
frame, a caught-exception frame and an all-low-confidence frame change
nothing, and the first frame with computable sway calibrates to its raw
sway. -/
theorem calibration_deferred_witness :
    yolo_run ⟨0, true⟩
        [Detection.noPerson, Detection.procError, Detection.person pBad,
          Detection.person pGood]
      = ⟨raw_hip_sway pGood, false⟩ :=
  (calibration_deferred ⟨0, true⟩ rfl).2
    [Detection.noPerson, Detection.procError, Detection.person pBad] pGood
    (by
      intro d hd
      fin_cases hd <;>
        norm_num [sway_computable, sway_visible, pBad, CONF_THRESHOLD])
    (by norm_num [sway_visible, pGood, CONF_THRESHOLD])

/-- Counterexample to C7 as stated: on a frame with zero detected subjects
the vision stage does not enqueue anything at all — here with offset `0` and
no trigger set, the step's emission slot is `none`, not the claimed pair of
the annotated frame with the all-none bundle. -/
theorem no_person_emission_counterexample :
    ¬ ((yolo_step ⟨0, false⟩ Detection.noPerson).2
        = some (⟨none, none, none⟩ : PoseData)) := by
  simp [yolo_step]

/-- Claim C7 amended: on a frame with zero detected subjects the `continue`
statement skips the enqueue entirely, so the annotated frame and its bundle
are both dropped and the vision state is unchanged; by contrast, a frame
whose keypoint processing raises a caught exception does still emit the
annotated frame together with an all-none signal bundle. -/
theorem no_person_frame_dropped (st : VisionState) :
    yolo_step st Detection.noPerson = (st, none) ∧
    yolo_step st Detection.procError = (st, some ⟨none, none, none⟩) :=
  ⟨rfl, rfl⟩

/-- Every emitted bundle's arm field is either absent or a value of
`calculate_angle` on the person's 2D keypoint positions. -/
theorem yolo_step_arm_shape (st : VisionState) (d : Detection) (pd : PoseData)
    (h : (yolo_step st d).2 = some pd) :
    (pd.left_arm = none ∨
      ∃ a b c : Fin 2 → ℝ, pd.left_arm = some (calculate_angle a b c)) ∧
    (pd.right_arm = none ∨
      ∃ a b c : Fin 2 → ℝ, pd.right_arm = some (calculate_angle a b c)) := by
  cases d with
  | noPerson => simp [yolo_step] at h
  | procError =>
    simp only [yolo_step, Option.some.injEq] at h
    subst h
    simp
  | person p =>
    have hL : pd.left_arm
        = (if left_arm_visible p then
            some (calculate_angle (kpos p.l_hip) (kpos p.l_shoulder)
              (kpos p.l_elbow))
          else none) := by
      simp only [yolo_step] at h
      split at h <;> (simp only [Option.some.injEq] at h; subst h; rfl)
    have hR : pd.right_arm
        = (if right_arm_visible p then
            some (calculate_angle (kpos p.r_hip) (kpos p.r_shoulder)
              (kpos p.r_elbow))
          else none) := by
      simp only [yolo_step] at h
      split at h <;> (simp only [Option.some.injEq] at h; subst h; rfl)
    constructor
    · rw [hL]
      by_cases hl : left_arm_visible p
      · exact Or.inr ⟨_, _, _, by rw [if_pos hl]⟩
      · exact Or.inl (by rw [if_neg hl])
    · rw [hR]
      by_cases hr : right_arm_visible p
      · exact Or.inr ⟨_, _, _, by rw [if_pos hr]⟩
      · exact Or.inl (by rw [if_neg hr])

/-- Claim C9: every arm field of every bundle the vision stage emits is
either absent or a finite angle in `[0, π]`: present arm fields are values of
`calculate_angle`, whose cosine is clipped to `[-1, 1]` before `arccos` and
whose zero-length guard returns `0`, so every value lies in `[0, π]`.  (In
this real-number embedding every value is by construction a finite real, so
the NaN-freedom of the claim is expressed by totality plus this range
bound; the hip-sway field is a difference of finite reals and needs no
separate statement.) -/
theorem emitted_signals_never_invalid (st : VisionState) (d : Detection)
    (pd : PoseData) (h : (yolo_step st d).2 = some pd) :
    (∀ x, pd.left_arm = some x → x ∈ Set.Icc 0 Real.pi) ∧
    (∀ x, pd.right_arm = some x → x ∈ Set.Icc 0 Real.pi) := by
  obtain ⟨hL, hR⟩ := yolo_step_arm_shape st d pd h
  constructor
  · intro x hx
    rcases hL with hL | ⟨a, b, c, hL⟩ <;> rw [hL] at hx
    · exact absurd hx (by simp)
    · simp only [Option.some.injEq] at hx
      subst hx
      exact calculate_angle_mem_Icc a b c
  · intro x hx
    rcases hR with hR | ⟨a, b, c, hR⟩ <;> rw [hR] at hx
    · exact absurd hx (by simp)
    · simp only [Option.some.injEq] at hx
      subst hx
      exact calculate_angle_mem_Icc a b c

/-- The bundle emitted for the fully visible person `pFull` from the initial
vision state. -/
noncomputable def pdFull : PoseData :=
  ⟨some (calculate_angle (kpos pFull.l_hip) (kpos pFull.l_shoulder)
      (kpos pFull.l_elbow)),
    some (calculate_angle (kpos pFull.r_hip) (kpos pFull.r_shoulder)
      (kpos pFull.r_elbow)),
    some (raw_hip_sway pFull - 0)⟩

/-- Witness for C9 at concrete inputs: the left-arm angle emitted for the
person `pFull` lies in `[0, π]`. -/
theorem emitted_signals_never_invalid_witness :
    calculate_angle (kpos pFull.l_hip) (kpos pFull.l_shoulder)
        (kpos pFull.l_elbow) ∈ Set.Icc 0 Real.pi :=
  (emitted_signals_never_invalid ⟨0, false⟩ (Detection.person pFull) pdFull
      (by
        simp only [yolo_step]
        rw [if_pos (show sway_visible pFull by
          norm_num [sway_visible, pFull, CONF_THRESHOLD])]
        norm_num [pdFull, left_arm_visible, right_arm_visible, pFull,
          CONF_THRESHOLD])).1
    _ rfl

/-- Claim C6: `put_nowait` on a full bounded queue leaves the queue exactly
as it was — the new item is dropped, nothing is overwritten; in this
embedding the operation is a total function and the caller sees no error
(the Python `queue.Full` exception is swallowed by the surrounding
`except ... pass`), covering both the capacity-2 `frame_queue` and the
capacity-10 `pose_queue`. -/
theorem put_nowait_full_drop {α : Type} (q : BQueue α) (a : α)
    (hfull : q.cap ≤ q.items.length) : put_nowait q a = q := by
  unfold put_nowait
  rw [if_neg (not_lt.mpr hfull)]

/-- Witness for C6 at concrete inputs: a full capacity-2 frame queue and a
full capacity-10 signal queue are both left unchanged by a non-blocking
put. -/
theorem put_nowait_full_drop_witness :
    put_nowait ⟨frame_queue_maxsize, [0, 1]⟩ (5 : Nat)
        = ⟨frame_queue_maxsize, [0, 1]⟩ ∧
    put_nowait ⟨pose_queue_maxsize, [0, 1, 2, 3, 4, 5, 6, 7, 8, 9]⟩ (5 : Nat)
        = ⟨pose_queue_maxsize, [0, 1, 2, 3, 4, 5, 6, 7, 8, 9]⟩ :=
  ⟨put_nowait_full_drop _ _ (by decide),
    put_nowait_full_drop _ _ (by decide)⟩
